import Mathlib

/-!
Shallow embedding of the checkpointing core of `codingwatching/Any-code`
(`src-tauri/src/commands/simple_git.rs`) and of its MCP server registry
(`src-tauri/src/mcp/registry.rs`).

External subprocess execution is modelled by a `Gateway`: a function from a
working directory and an argument list to the captured outcome of
`Command::output()` (either a spawn error or an exit status with raw
stdout/stderr bytes).  All functions that the source builds on top of
`Command::output()` are translated over this gateway, byte-faithfully:
strict UTF-8 decoding models `String::from_utf8`, lossy decoding models
`String::from_utf8_lossy`, `rustTrim` models `str::trim`, `rustLines`
models `str::lines`, and `parseUsize` models `str::parse::<usize>()`.
-/

/-- Raw outcome of a process that did spawn: exit-status success flag and the
captured stdout/stderr bytes (`std::process::Output`). -/
structure Output where
  success : Bool
  stdout : List Nat
  stderr : List Nat
deriving DecidableEq, Repr

/-- Decidable equality of `Except` results, for evaluating the model on
concrete inputs. -/
instance exceptDecEq {ε α : Type} [DecidableEq ε] [DecidableEq α] :
    DecidableEq (Except ε α) := fun a b =>
  match a, b with
  | .ok x, .ok y =>
    if h : x = y then isTrue (by rw [h]) else isFalse (fun hh => h (Except.ok.inj hh))
  | .error x, .error y =>
    if h : x = y then isTrue (by rw [h]) else isFalse (fun hh => h (Except.error.inj hh))
  | .ok _, .error _ => isFalse (fun hh => Except.noConfusion hh)
  | .error _, .ok _ => isFalse (fun hh => Except.noConfusion hh)

/-- The process gateway: working directory and argument list to the result of
`Command::output()`; `.error e` models a spawn failure with display text `e`. -/
def Gateway : Type := String → List String → Except String Output

/-- Is `b` a UTF-8 continuation byte (`0x80 ..= 0xBF`)? -/
def isCont (b : Nat) : Bool := 0x80 ≤ b && b ≤ 0xBF

/-- Decode the first UTF-8 scalar value of a byte list, returning the code
point and the remaining bytes, or `none` when the head is not a valid UTF-8
sequence (overlong forms, surrogates and out-of-range values rejected, exactly
as Rust's UTF-8 validation does). -/
def utf8DecodeOne : List Nat → Option (Nat × List Nat)
  | [] => none
  | b :: rest =>
    if b ≤ 0x7F then some (b, rest)
    else if b < 0xC2 then none
    else if b ≤ 0xDF then
      match rest with
      | [] => none
      | b1 :: r =>
        if isCont b1 then some ((b - 0xC0) * 64 + (b1 - 0x80), r) else none
    else if b ≤ 0xEF then
      match rest with
      | b1 :: b2 :: r =>
        let okB1 : Bool :=
          if b = 0xE0 then 0xA0 ≤ b1 && b1 ≤ 0xBF
          else if b = 0xED then 0x80 ≤ b1 && b1 ≤ 0x9F
          else isCont b1
        if okB1 && isCont b2 then
          some ((b - 0xE0) * 4096 + (b1 - 0x80) * 64 + (b2 - 0x80), r)
        else none
      | _ => none
    else if b ≤ 0xF4 then
      match rest with
      | b1 :: b2 :: b3 :: r =>
        let okB1 : Bool :=
          if b = 0xF0 then 0x90 ≤ b1 && b1 ≤ 0xBF
          else if b = 0xF4 then 0x80 ≤ b1 && b1 ≤ 0x8F
          else isCont b1
        if okB1 && isCont b2 && isCont b3 then
          some ((b - 0xF0) * 262144 + (b1 - 0x80) * 4096 + (b2 - 0x80) * 64 + (b3 - 0x80), r)
        else none
      | _ => none
    else none

/-- The Unicode replacement character U+FFFD. -/
def repChar : Char := Char.ofNat 0xFFFD

/-- Strict UTF-8 decoding of a whole byte list (`String::from_utf8`):
`none` when any sequence is invalid. -/
def utf8DecodeAux : Nat → List Nat → Option (List Char)
  | _, [] => some []
  | 0, _ :: _ => none
  | fuel + 1, b :: rest =>
    match utf8DecodeOne (b :: rest) with
    | none => none
    | some (c, r) => (utf8DecodeAux fuel r).map (fun cs => Char.ofNat c :: cs)

/-- Lossy UTF-8 decoding (`String::from_utf8_lossy`): each invalid sequence
contributes a U+FFFD replacement character.  (Rust replaces a maximal invalid
subsequence of up to three bytes per U+FFFD; this model resynchronises one
byte at a time, which yields the same decoding on valid input and inserts at
least one U+FFFD wherever Rust does.) -/
def utf8DecodeLossyAux : Nat → List Nat → List Char
  | _, [] => []
  | 0, _ :: _ => []
  | fuel + 1, b :: rest =>
    match utf8DecodeOne (b :: rest) with
    | none => repChar :: utf8DecodeLossyAux fuel rest
    | some (c, r) => Char.ofNat c :: utf8DecodeLossyAux fuel r

/-- Strict UTF-8 decoding of a byte list. -/
def utf8Decode (l : List Nat) : Option (List Char) := utf8DecodeAux l.length l

/-- Lossy UTF-8 decoding of a byte list. -/
def utf8DecodeLossy (l : List Nat) : List Char := utf8DecodeLossyAux l.length l

/-- Lossy UTF-8 decoding, packaged as a `String`. -/
def lossyString (l : List Nat) : String := String.mk (utf8DecodeLossy l)

/-- Rust `char::is_whitespace`: the Unicode `White_Space` property. -/
def isRustWhitespace (c : Char) : Bool :=
  let n := c.toNat
  (0x09 ≤ n && n ≤ 0x0D) || n == 0x20 || n == 0x85 || n == 0xA0 || n == 0x1680 ||
  (0x2000 ≤ n && n ≤ 0x200A) || n == 0x2028 || n == 0x2029 || n == 0x202F ||
  n == 0x205F || n == 0x3000

/-- Rust `str::trim`: strip leading and trailing whitespace. -/
def rustTrim (l : List Char) : List Char :=
  ((l.dropWhile isRustWhitespace).reverse.dropWhile isRustWhitespace).reverse

/-- Byte encoding of an ASCII string (agrees with UTF-8 on ASCII content);
used to build concrete gateway outputs. -/
def asciiBytes (s : String) : List Nat := s.data.map Char.toNat

/-- The checked accumulation loop of Rust `from_str_radix` (base 10, 64-bit
target), left to right: each character is first converted with `to_digit`
(`InvalidDigit` when it is not a digit), then the accumulator update is
checked against overflow (`PosOverflow` when `acc * 10 + d` no longer fits in
64 bits); characters after the first failure are never examined. -/
def parseDigits : Nat → List Char → Except String Nat
  | acc, [] => .ok acc
  | acc, c :: cs =>
    if c.isDigit then
      let acc' := acc * 10 + (c.toNat - 48)
      if acc' < 2 ^ 64 then parseDigits acc' cs
      else .error "number too large to fit in target type"
    else .error "invalid digit found in string"

/-- Rust `str::parse::<usize>()` on a 64-bit target: empty input is the
`Empty` error, an optional leading `+` is stripped (a bare sign is
`InvalidDigit`), and the rest runs through the checked accumulation loop;
the error strings are the display texts of the `ParseIntError` kinds. -/
def parseUsize (s : List Char) : Except String Nat :=
  match s with
  | [] => .error "cannot parse integer from empty string"
  | c0 :: rest =>
    let digits := if c0 = '+' then rest else c0 :: rest
    if digits.isEmpty then .error "invalid digit found in string"
    else parseDigits 0 digits

/-- Does `sub` occur at the head of `l`? (`List` prefix test, Boolean.) -/
def listHasPrefix : List Char → List Char → Bool
  | [], _ => true
  | _ :: _, [] => false
  | a :: as, b :: bs => a == b && listHasPrefix as bs

/-- Does `sub` occur as a contiguous sublist of `l`?  Models Rust
`str::contains` with a literal pattern. -/
def listContainsSub : List Char → List Char → Bool
  | [], sub => sub.isEmpty
  | l@(_ :: t), sub => listHasPrefix sub l || listContainsSub t sub

/-- Rust `str::contains` on `String`s. -/
def containsSubstr (s sub : String) : Bool := listContainsSub s.data sub.data

/-- Rust `str::to_lowercase`, restricted to the simple one-to-one case
mapping (accurate on ASCII, which is all the classifier's markers use). -/
def toLowerString (s : String) : String := String.mk (s.data.map Char.toLower)

/-- Split a character list at every `'\n'`, keeping all (possibly empty)
segments; always returns at least one segment. -/
def splitNl : List Char → List (List Char)
  | [] => [[]]
  | c :: t =>
    if c = '\n' then [] :: splitNl t
    else
      match splitNl t with
      | [] => [[c]]
      | s :: ss => (c :: s) :: ss

/-- Strip one trailing `'\r'` from a segment. -/
def stripCr (seg : List Char) : List Char :=
  match seg.getLast? with
  | some '\r' => seg.dropLast
  | _ => seg

/-- Rust `str::lines`: split at `'\n'`; a line terminated by `'\n'` has a
single trailing `'\r'` stripped; a trailing empty segment produced by a final
newline is dropped; a last line with no final newline is returned verbatim. -/
def rustLines (l : List Char) : List (List Char) :=
  match l with
  | [] => []
  | _ :: _ =>
    let segs := splitNl l
    match segs.getLast? with
    | some [] => segs.dropLast.map stripCr
    | some last => segs.dropLast.map stripCr ++ [last]
    | none => []

/-!
### Git primitives over the gateway (`simple_git.rs`)
Each function mirrors one Rust function: spawn errors (`Except.error` from
the gateway) are mapped through the same `format!` prefixes; a non-success
exit status produces the corresponding `Git ... failed:` message with lossily
decoded stderr.
-/

/-- `git_current_commit`: run `git rev-parse HEAD`, require success, decode
stdout strictly (`String::from_utf8` — a decode failure is an error), trim. -/
def git_current_commit (gw : Gateway) (project_path : String) : Except String String :=
  match gw project_path ["rev-parse", "HEAD"] with
  | .error e => .error ("Failed to get current commit: " ++ e)
  | .ok output =>
    if !output.success then
      .error ("Git rev-parse failed: " ++ lossyString output.stderr)
    else
      match utf8Decode output.stdout with
      | none => .error ("Invalid UTF-8 in commit hash: " ++ "invalid utf-8 sequence")
      | some cs => .ok (String.mk (rustTrim cs))

/-- `git_commit_count_between`: run `git rev-list --count from..to`, decode
stdout *lossily* (`String::from_utf8_lossy`), trim, parse as `usize`. -/
def git_commit_count_between (gw : Gateway) (project_path from_commit to_commit : String) :
    Except String Nat :=
  match gw project_path ["rev-list", "--count", from_commit ++ ".." ++ to_commit] with
  | .error e => .error ("Failed to count commits: " ++ e)
  | .ok output =>
    if !output.success then
      .error ("Git rev-list failed: " ++ lossyString output.stderr)
    else
      let count_str := rustTrim (utf8DecodeLossy output.stdout)
      match parseUsize count_str with
      | .ok n => .ok n
      | .error e => .error ("Failed to parse commit count: " ++ e)

/-- `git_log_between`: run `git log --oneline --format=%s from..to`, decode
stdout lossily, split into lines, drop lines that are empty after trimming. -/
def git_log_between (gw : Gateway) (project_path from_commit to_commit : String) :
    Except String (List String) :=
  match gw project_path ["log", "--oneline", "--format=%s", from_commit ++ ".." ++ to_commit] with
  | .error e => .error ("Failed to get git log: " ++ e)
  | .ok output =>
    if !output.success then
      .error ("Git log failed: " ++ lossyString output.stderr)
    else
      let log_str := utf8DecodeLossy output.stdout
      .ok (((rustLines log_str).filter (fun line => !(rustTrim line).isEmpty)).map String.mk)

/-- `git_stash_save`: `git status --porcelain`; empty stdout is a no-op
success; otherwise `git stash save -u message`, whose non-zero exit is only
logged (the spawn failure of either command is propagated). -/
def git_stash_save (gw : Gateway) (project_path message : String) : Except String Unit :=
  match gw project_path ["status", "--porcelain"] with
  | .error e => .error ("Failed to check status: " ++ e)
  | .ok status_output =>
    if status_output.stdout.isEmpty then
      .ok ()
    else
      match gw project_path ["stash", "save", "-u", message] with
      | .error e => .error ("Failed to stash: " ++ e)
      | .ok _output =>
        -- a non-success exit status only logs a warning
        .ok ()

/-!
### Reset safety check (`check_reset_safety`)
-/

/-- `ResetSafetyInfo` (verdict of the safety check). -/
structure ResetSafetyInfo where
  commits_to_lose : Nat
  has_other_engine_commits : Bool
  has_user_commits : Bool
  commits_summary : List String
  safe_to_proceed : Bool
  warning : Option String
deriving DecidableEq, Repr

/-- `msg.contains("[Claude") || msg.contains("[Claude Code]")`. -/
def is_claude (msg : String) : Bool :=
  containsSubstr msg "[Claude" || containsSubstr msg "[Claude Code]"

/-- `msg.contains("[Codex]")`. -/
def is_codex (msg : String) : Bool := containsSubstr msg "[Codex]"

/-- `msg.contains("[Gemini]")`. -/
def is_gemini (msg : String) : Bool := containsSubstr msg "[Gemini]"

/-- `msg.contains("[Claude Workbench]")`. -/
def is_workbench (msg : String) : Bool := containsSubstr msg "[Claude Workbench]"

/-- The `match current_engine.as_str()` deciding whether a subject is a
commit of the requesting engine (legacy alias `[Claude Workbench]` belongs to
`"claude"`); any unrecognised engine string matches nothing. -/
def is_current_engine (current_engine msg : String) : Bool :=
  match current_engine with
  | "claude" => is_claude msg || is_workbench msg
  | "codex" => is_codex msg
  | "gemini" => is_gemini msg
  | _ => false

/-- `is_claude || is_codex || is_gemini || is_workbench`. -/
def is_any_engine (msg : String) : Bool :=
  is_claude msg || is_codex msg || is_gemini msg || is_workbench msg

/-- A user commit: no engine marker and the lowercased subject does not
contain `"merge"`. -/
def is_user_commit (msg : String) : Bool :=
  !is_any_engine msg && !containsSubstr (toLowerString msg) "merge"

/-- Accumulator of the classification loop of `check_reset_safety`. -/
structure ClassAcc where
  has_other_engine_commits : Bool
  has_user_commits : Bool
  other_engine_count : Nat
  user_commit_count : Nat
deriving DecidableEq, Repr

/-- One iteration of the `for msg in &commits_summary` loop. -/
def classifyStep (current_engine : String) (acc : ClassAcc) (msg : String) : ClassAcc :=
  let acc :=
    if is_any_engine msg && !is_current_engine current_engine msg then
      { acc with has_other_engine_commits := true,
                 other_engine_count := acc.other_engine_count + 1 }
    else acc
  if is_user_commit msg then
    { acc with has_user_commits := true, user_commit_count := acc.user_commit_count + 1 }
  else acc

/-- The whole classification loop, from the all-false/zero accumulator. -/
def classifyAll (current_engine : String) (msgs : List String) : ClassAcc :=
  msgs.foldl (classifyStep current_engine) ⟨false, false, 0, 0⟩

/-- `let safe_to_proceed = !has_other_engine_commits && !has_user_commits &&
commits_to_lose <= 5` (line 454). -/
def safeFlag (current_engine : String) (commits_to_lose : Nat)
    (commits_summary : List String) : Bool :=
  let acc := classifyAll current_engine commits_summary
  !acc.has_other_engine_commits && !acc.has_user_commits && decide (commits_to_lose ≤ 5)

/-- The warning builder (lines 457–484): when unsafe, join the applicable
reason texts with `"；"`; otherwise `None`. -/
def warningText (current_engine : String) (commits_to_lose : Nat)
    (commits_summary : List String) : Option String :=
  let acc := classifyAll current_engine commits_summary
  if !safeFlag current_engine commits_to_lose commits_summary then
    let warnings :=
      (if acc.has_other_engine_commits then
        ["检测到 " ++ toString acc.other_engine_count ++ " 个来自其他引擎的提交将被丢失"]
      else []) ++
      (if acc.has_user_commits then
        ["检测到 " ++ toString acc.user_commit_count ++ " 个用户手动提交将被丢失"]
      else []) ++
      (if decide (commits_to_lose > 5) && !acc.has_other_engine_commits
          && !acc.has_user_commits then
        ["将丢失 " ++ toString commits_to_lose ++ " 个提交，这可能会回滚较多代码更改"]
      else [])
    some (String.intercalate "；" warnings)
  else none

/-- Lines 417–501 of `simple_git.rs`: classify the fetched subjects, decide
`safe_to_proceed`, build the warning text, and truncate the stored summary
list to 10 entries. -/
def build_safety_info (current_engine : String) (commits_to_lose : Nat)
    (commits_summary : List String) : ResetSafetyInfo :=
  let acc := classifyAll current_engine commits_summary
  { commits_to_lose := commits_to_lose
    has_other_engine_commits := acc.has_other_engine_commits
    has_user_commits := acc.has_user_commits
    commits_summary := commits_summary.take 10
    safe_to_proceed := safeFlag current_engine commits_to_lose commits_summary
    warning := warningText current_engine commits_to_lose commits_summary }

/-- `check_reset_safety`: resolve head; equal head and target short-circuit
to the zero-loss verdict; otherwise count the range, fetch its subjects and
build the verdict.  Every failed query propagates its error. -/
def check_reset_safety (gw : Gateway) (project_path target_commit current_engine : String) :
    Except String ResetSafetyInfo :=
  match git_current_commit gw project_path with
  | .error e => .error e
  | .ok current_head =>
    if current_head = target_commit then
      .ok { commits_to_lose := 0
            has_other_engine_commits := false
            has_user_commits := false
            commits_summary := []
            safe_to_proceed := true
            warning := none }
    else
      match git_commit_count_between gw project_path target_commit current_head with
      | .error e => .error e
      | .ok commits_to_lose =>
        match git_log_between gw project_path target_commit current_head with
        | .error e => .error e
        | .ok commits_summary =>
          .ok (build_safety_info current_engine commits_to_lose commits_summary)

/-!
### Bootstrap (`ensure_git_repo`)

`ensure_git_repo` mutates the repository (init, identity config, staging,
initial commit), so it is embedded as a state transformer on an explicit
repository state.  Which of the five spawned commands succeed is injected
through a `BootFaults` record; the state-level effect of each successful
command is the git contract for that command (`rev-parse HEAD` succeeds
exactly when a commit exists, `init` materialises the store directory,
`commit --allow-empty` always appends a commit when it runs successfully).
-/

/-- Abstract repository state for the bootstrap workflow. -/
structure RepoState where
  /-- `.git` directory exists (`is_git_repo`). -/
  hasGitDir : Bool
  /-- Messages of existing commits, newest first. -/
  commitMessages : List String
  /-- Configured `user.name`, if any. -/
  userName : Option String
  /-- Configured `user.email`, if any. -/
  userEmail : Option String
  /-- Whether a `git add -A` has staged the working tree. -/
  stagedAll : Bool
deriving DecidableEq, Repr

/-- `is_git_repo && git_current_commit(..).is_ok()`: the repository is ready
when the store directory exists and at least one commit does. -/
def isReady (s : RepoState) : Bool := s.hasGitDir && !s.commitMessages.isEmpty

/-- Outcome of one spawned command during bootstrap: the process failed to
spawn, or it ran with the given success flag and (lossily decoded) stderr. -/
inductive ProcResult where
  | spawnErr (e : String)
  | ran (success : Bool) (stderrText : String)
deriving DecidableEq, Repr

/-- Fault injection for the five commands `ensure_git_repo` may spawn. -/
structure BootFaults where
  initRes : ProcResult
  configNameRes : ProcResult
  configEmailRes : ProcResult
  addRes : ProcResult
  commitRes : ProcResult
deriving DecidableEq, Repr

/-- The fixed message of the bootstrap commit. -/
def initialCommitMessage : String :=
  "[Claude Workbench] Initial commit - preserving existing code"

/-- `git config user.name`/`user.email` during bootstrap: the `Result` of
`.output()` is discarded (`let _ = ...`), so both spawn errors and failed
exits leave the flow untouched; a successful run records the identity. -/
def applyConfig (res : ProcResult) (value : String) (field : Option String) : Option String :=
  match res with
  | .ran true _ => some value
  | _ => field

/-- `ensure_git_repo` (lines 14–110 of `simple_git.rs`) as a state
transformer: `.ok s'` is a successful return with resulting repository state
`s'`; `.error e` is the propagated error string. -/
def ensure_git_repo (f : BootFaults) (s : RepoState) : Except String RepoState :=
  let has_git_dir := s.hasGitDir
  let has_commits := has_git_dir && !s.commitMessages.isEmpty
  if has_commits then
    .ok s
  else
    -- init when the store directory is absent
    let afterInit : Except String RepoState :=
      if !has_git_dir then
        match f.initRes with
        | .spawnErr e => .error ("Failed to init git: " ++ e)
        | .ran false stderr => .error ("Git init failed: " ++ stderr)
        | .ran true _ => .ok { s with hasGitDir := true }
      else
        .ok s
    match afterInit with
    | .error e => .error e
    | .ok s1 =>
      -- identity configuration: results ignored
      let s2 := { s1 with userName := applyConfig f.configNameRes "Claude Workbench" s1.userName }
      let s3 := { s2 with userEmail := applyConfig f.configEmailRes "ai@claude.workbench" s2.userEmail }
      -- git add -A: spawn failure propagates, a failed exit only warns
      let afterAdd : Except String RepoState :=
        match f.addRes with
        | .spawnErr e => .error ("Failed to add files: " ++ e)
        | .ran false _ => .ok s3
        | .ran true _ => .ok { s3 with stagedAll := true }
      match afterAdd with
      | .error e => .error e
      | .ok s4 =>
        -- git commit --allow-empty -m initialCommitMessage
        match f.commitRes with
        | .spawnErr e => .error ("Failed to create initial commit: " ++ e)
        | .ran false stderr => .error ("Failed to create initial commit: " ++ stderr)
        | .ran true _ =>
          .ok { s4 with commitMessages := initialCommitMessage :: s4.commitMessages }

/-!
### MCP server registry (`mcp/registry.rs`)

The registry file is embedded as `Option (McpRegistry V)`: `none` is an
absent (or empty) file, `some reg` a file holding the parsed document.  The
`HashMap`s (`servers` in the document, the engine's imported enabled set) are
embedded as association lists with the `HashMap` semantics: lookup finds the
first binding, insert replaces the binding, remove erases it.  The server
specification type (`serde_json::Value`) is opaque, hence a type parameter.
-/

/-- A registry entry: id, display name, full server spec, enabled flag. -/
structure RegistryEntry (V : Type) where
  id : String
  name : String
  server : V
  enabled : Bool
deriving DecidableEq, Repr

/-- The persisted registry document: `servers : HashMap<String, RegistryEntry>`. -/
structure McpRegistry (V : Type) where
  servers : List (String × RegistryEntry V)
deriving DecidableEq, Repr

/-- `HashMap::get` on the association-list embedding. -/
def alistLookup {α : Type} : List (String × α) → String → Option α
  | [], _ => none
  | (k, v) :: t, key => if k = key then some v else alistLookup t key

/-- `HashMap::insert`: replace the binding of `key` or append a new one. -/
def alistInsert {α : Type} : List (String × α) → String → α → List (String × α)
  | [], key, v => [(key, v)]
  | (k, w) :: t, key, v =>
    if k = key then (key, v) :: t else (k, w) :: alistInsert t key v

/-- `HashMap::remove`: erase the binding of `key` (the association list holds
at most one binding per key, as a `HashMap` does; erasing every one makes the
embedding independent of that invariant). -/
def alistRemove {α : Type} (l : List (String × α)) (key : String) : List (String × α) :=
  l.filter (fun p => p.1 ≠ key)

/-- The registry file state: `none` models an absent or empty file. -/
def Store (V : Type) : Type := Option (McpRegistry V)

/-- `read_registry`: an absent or empty file reads as the default (empty)
registry; a present file reads as its parsed document. -/
def read_registry {V : Type} (store : Store V) : Except String (McpRegistry V) :=
  match store with
  | none => .ok { servers := [] }
  | some reg => .ok reg

/-- `write_registry`: whole-file replace. -/
def write_registry {V : Type} (reg : McpRegistry V) : Store V := some reg

/-- `upsert_server`: read, insert the entry built from exactly the given
fields, write. -/
def upsert_server {V : Type} (store : Store V) (id name : String) (server : V)
    (enabled : Bool) : Except String (Store V) :=
  match read_registry store with
  | .error e => .error e
  | .ok registry =>
    let registry' :=
      { registry with
        servers := alistInsert registry.servers id
          { id := id, name := name, server := server, enabled := enabled } }
    .ok (write_registry registry')

/-- `remove_server`: read; write only when a binding was actually removed. -/
def remove_server {V : Type} (store : Store V) (id : String) : Except String (Store V) :=
  match read_registry store with
  | .error e => .error e
  | .ok registry =>
    if (alistLookup registry.servers id).isSome then
      .ok (write_registry { registry with servers := alistRemove registry.servers id })
    else
      .ok store

/-- `get_server`: read and look the id up; an absent id is `none`, not an
error. -/
def get_server {V : Type} (store : Store V) (id : String) :
    Except String (Option (RegistryEntry V)) :=
  match read_registry store with
  | .error e => .error e
  | .ok registry => .ok (alistLookup registry.servers id)

/-- Environment of `get_engine_servers_with_status`: the registry file, the
outcome of `AppType::from_str(engine)` and the outcome of `import_from_app`
(the engine's live enabled set). -/
structure McpEnv (V : Type) where
  store : Store V
  appTypeOk : Bool
  importResult : Except String (List (String × V))

/-- The first loop of `get_engine_servers_with_status`: every registry entry
is emitted with the engine's spec when the id is enabled there (the stored
spec otherwise), and its id is recorded as seen. -/
def statusLoop {V : Type} (enabled_servers : List (String × V))
    (acc : List (String × V × Bool) × List String) (p : String × RegistryEntry V) :
    List (String × V × Bool) × List String :=
  let id := p.1
  let entry := p.2
  let is_enabled := (alistLookup enabled_servers id).isSome
  let spec := (alistLookup enabled_servers id).getD entry.server
  (acc.1 ++ [(id, spec, is_enabled)], acc.2 ++ [id])

/-- `get_engine_servers_with_status` (lines 104–134 of `registry.rs`):
read the registry, resolve the engine, read its live config with
`unwrap_or_default`, emit every registry entry with its live-enabled status,
then append the live-only ids as enabled. -/
def get_engine_servers_with_status {V : Type} (env : McpEnv V) :
    Except String (List (String × V × Bool)) :=
  match read_registry env.store with
  | .error e => .error e
  | .ok registry =>
    if !env.appTypeOk then .error "unsupported app type"
    else
      let enabled_servers := match env.importResult with
        | .ok m => m
        | .error _ => []
      let firstPass := registry.servers.foldl (statusLoop enabled_servers) ([], [])
      let result := firstPass.1
      let seen_ids := firstPass.2
      let extra := (enabled_servers.filter (fun p => !seen_ids.contains p.1)).map
        (fun p => (p.1, p.2, true))
      .ok (result ++ extra)

/-!
### Concrete gateways for evaluation
-/

/-- A gateway that answers the three read-only git queries with fixed
outcomes, dispatching on the subcommand. -/
def mkGitGateway (revparse revlist logres : Except String Output) : Gateway :=
  fun _ args =>
    match args with
    | "rev-parse" :: _ => revparse
    | "rev-list" :: _ => revlist
    | "log" :: _ => logres
    | _ => .error "unexpected command"

/-- A gateway for the stash workflow: fixed outcomes for `status` and
`stash`. -/
def mkStashGateway (statusres stashres : Except String Output) : Gateway :=
  fun _ args =>
    match args with
    | "status" :: _ => statusres
    | "stash" :: _ => stashres
    | _ => .error "unexpected command"

/-- Gateway: head `abc`, 3 commits to lose, two current-engine subjects. -/
def gwCurrentOnly : Gateway :=
  mkGitGateway (.ok ⟨true, asciiBytes "abc\n", []⟩)
    (.ok ⟨true, asciiBytes "3\n", []⟩)
    (.ok ⟨true, asciiBytes "[Claude] edit one\n[Claude Workbench] edit two\n", []⟩)

/-- Gateway: head `abc`, 1 commit to lose, one unmarked non-merge subject. -/
def gwUserOnly : Gateway :=
  mkGitGateway (.ok ⟨true, asciiBytes "abc\n", []⟩)
    (.ok ⟨true, asciiBytes "1\n", []⟩)
    (.ok ⟨true, asciiBytes "fix typo by hand\n", []⟩)

/-- Gateway: head `abc`, empty range. -/
def gwEmptyRange : Gateway :=
  mkGitGateway (.ok ⟨true, asciiBytes "abc\n", []⟩)
    (.ok ⟨true, asciiBytes "0\n", []⟩)
    (.ok ⟨true, asciiBytes "", []⟩)

/-- Gateway: head `abc`, 2 commits to lose, one `[Codex]` subject. -/
def gwCodexMarked : Gateway :=
  mkGitGateway (.ok ⟨true, asciiBytes "abc\n", []⟩)
    (.ok ⟨true, asciiBytes "2\n", []⟩)
    (.ok ⟨true, asciiBytes "[Codex] refactor\n", []⟩)

/-- Gateway whose parsed-stdout queries both return the invalid byte `0xFF`
with a success exit status. -/
def gwInvalidUtf8 : Gateway :=
  mkGitGateway (.ok ⟨true, [0xFF], []⟩)
    (.ok ⟨true, [0xFF], []⟩)
    (.ok ⟨true, asciiBytes "", []⟩)

/-- Stash gateway: dirty working tree, stash process fails to spawn. -/
def gwStashSpawnFail : Gateway :=
  mkStashGateway (.ok ⟨true, asciiBytes "M file\n", []⟩) (.error "boom")

/-- Stash gateway: clean working tree. -/
def gwStashClean : Gateway :=
  mkStashGateway (.ok ⟨true, asciiBytes "", []⟩) (.error "never spawned")

/-- Stash gateway: dirty working tree, stash command runs and reports
failure. -/
def gwStashCmdFail : Gateway :=
  mkStashGateway (.ok ⟨true, asciiBytes "M file\n", []⟩)
    (.ok ⟨false, [], asciiBytes "stash failed"⟩)

/-- A fault-free bootstrap environment. -/
def faultsOk : BootFaults :=
  { initRes := .ran true "", configNameRes := .ran true "", configEmailRes := .ran true "",
    addRes := .ran true "", commitRes := .ran true "" }

/-- A bootstrap environment in which every command would fail to spawn. -/
def faultsBroken : BootFaults :=
  { initRes := .spawnErr "no git", configNameRes := .spawnErr "no git",
    configEmailRes := .spawnErr "no git", addRes := .spawnErr "no git",
    commitRes := .spawnErr "no git" }

/-- A ready repository state: store directory present, one commit. -/
def readyState : RepoState :=
  { hasGitDir := true, commitMessages := ["first"], userName := none, userEmail := none,
    stagedAll := false }

/-- An absent-store repository state with no commits. -/
def absentState : RepoState :=
  { hasGitDir := false, commitMessages := [], userName := none, userEmail := none,
    stagedAll := false }

/-- A concrete registry environment: one persisted disabled entry `a`, one
live-only enabled id `b`. -/
def envC6 : McpEnv Nat :=
  { store := some { servers := [("a", { id := "a", name := "A", server := 5, enabled := false })] }
    appTypeOk := true
    importResult := .ok [("b", 7)] }

/-- The reconciled listing `envC6` produces. -/
def resC6 : List (String × Nat × Bool) := [("a", 5, false), ("b", 7, true)]

/-!
## Theorems
-/

theorem classifyStep_other (e : String) (acc : ClassAcc) (msg : String) :
    (classifyStep e acc msg).has_other_engine_commits =
      (acc.has_other_engine_commits ||
        (is_any_engine msg && !is_current_engine e msg)) := by
  unfold classifyStep
  cases h1 : is_any_engine msg && !is_current_engine e msg <;>
    cases h2 : is_user_commit msg <;> simp [h1, h2]

theorem classifyStep_user (e : String) (acc : ClassAcc) (msg : String) :
    (classifyStep e acc msg).has_user_commits =
      (acc.has_user_commits || is_user_commit msg) := by
  unfold classifyStep
  cases h1 : is_any_engine msg && !is_current_engine e msg <;>
    cases h2 : is_user_commit msg <;> simp [h1, h2]

theorem foldl_classify_other (e : String) (msgs : List String) (acc : ClassAcc) :
    (msgs.foldl (classifyStep e) acc).has_other_engine_commits =
      (acc.has_other_engine_commits ||
        msgs.any (fun m => is_any_engine m && !is_current_engine e m)) := by
  induction msgs generalizing acc with
  | nil => simp
  | cons m t ih =>
    simp only [List.foldl_cons, List.any_cons]
    rw [ih, classifyStep_other, Bool.or_assoc]

theorem foldl_classify_user (e : String) (msgs : List String) (acc : ClassAcc) :
    (msgs.foldl (classifyStep e) acc).has_user_commits =
      (acc.has_user_commits || msgs.any is_user_commit) := by
  induction msgs generalizing acc with
  | nil => simp
  | cons m t ih =>
    simp only [List.foldl_cons, List.any_cons]
    rw [ih, classifyStep_user, Bool.or_assoc]

theorem classifyAll_other (e : String) (msgs : List String) :
    (classifyAll e msgs).has_other_engine_commits =
      msgs.any (fun m => is_any_engine m && !is_current_engine e m) := by
  unfold classifyAll
  rw [foldl_classify_other]
  rfl

theorem classifyAll_user (e : String) (msgs : List String) :
    (classifyAll e msgs).has_user_commits = msgs.any is_user_commit := by
  unfold classifyAll
  rw [foldl_classify_user]
  rfl

theorem is_any_of_current (e msg : String) (h : is_current_engine e msg = true) :
    is_any_engine msg = true := by
  unfold is_current_engine at h
  unfold is_any_engine
  split at h
  · simp only [Bool.or_eq_true] at h
    rcases h with h' | h' <;> simp [h']
  · simp [h]
  · simp [h]
  · exact absurd h (by simp)

theorem is_current_engine_unknown (e msg : String)
    (h1 : e ≠ "claude") (h2 : e ≠ "codex") (h3 : e ≠ "gemini") :
    is_current_engine e msg = false := by
  unfold is_current_engine
  split
  · exact absurd rfl h1
  · exact absurd rfl h2
  · exact absurd rfl h3
  · rfl

theorem check_reset_safety_eq_ok (gw : Gateway)
    (project_path target_commit current_engine head : String) (n : Nat)
    (msgs : List String)
    (hhead : git_current_commit gw project_path = .ok head)
    (hne : head ≠ target_commit)
    (hcount : git_commit_count_between gw project_path target_commit head = .ok n)
    (hlog : git_log_between gw project_path target_commit head = .ok msgs) :
    check_reset_safety gw project_path target_commit current_engine =
      .ok (build_safety_info current_engine n msgs) := by
  unfold check_reset_safety
  rw [hhead]
  simp [hne, hcount, hlog]

theorem build_safety_info_safe (e : String) (n : Nat) (msgs : List String) :
    (build_safety_info e n msgs).safe_to_proceed =
      (!(classifyAll e msgs).has_other_engine_commits &&
        !(classifyAll e msgs).has_user_commits && decide (n ≤ 5)) := rfl

/-- C1: when head differs from target, the verdict's `safeToProceed` equals
`!hasOtherEngineCommits && !hasUserCommits && commitsToLose <= 5`; and when
every subject in the examined range is a current-engine commit and at most 5
commits would be lost, `safeToProceed` is `true`. -/
theorem check_reset_safety_safe_iff (gw : Gateway)
    (project_path target_commit current_engine head : String) (n : Nat)
    (msgs : List String) (info : ResetSafetyInfo)
    (hhead : git_current_commit gw project_path = .ok head)
    (hne : head ≠ target_commit)
    (hcount : git_commit_count_between gw project_path target_commit head = .ok n)
    (hlog : git_log_between gw project_path target_commit head = .ok msgs)
    (hres : check_reset_safety gw project_path target_commit current_engine = .ok info) :
    (info.safe_to_proceed =
      (!info.has_other_engine_commits && !info.has_user_commits &&
        decide (info.commits_to_lose ≤ 5)))
    ∧ ((∀ msg ∈ msgs, is_current_engine current_engine msg = true) → n ≤ 5 →
        info.safe_to_proceed = true) := by
  have heq := check_reset_safety_eq_ok gw project_path target_commit current_engine
    head n msgs hhead hne hcount hlog
  rw [heq] at hres
  have hinfo : info = build_safety_info current_engine n msgs := by
    cases hres; rfl
  subst hinfo
  constructor
  · rfl
  · intro hall hn
    rw [build_safety_info_safe]
    have hother : (classifyAll current_engine msgs).has_other_engine_commits = false := by
      rw [classifyAll_other]
      rw [List.any_eq_false]
      intro m hm
      rw [hall m hm]
      simp
    have huser : (classifyAll current_engine msgs).has_user_commits = false := by
      rw [classifyAll_user]
      rw [List.any_eq_false]
      intro m hm
      unfold is_user_commit
      rw [is_any_of_current current_engine m (hall m hm)]
      simp
    rw [hother, huser]
    simpa using hn

/-- Witness for C1 at a concrete gateway: two current-engine subjects and a
loss of 3 commits give a safe verdict. -/
theorem check_reset_safety_safe_iff_witness :
    (build_safety_info "claude" 3
      ["[Claude] edit one", "[Claude Workbench] edit two"]).safe_to_proceed = true :=
  (check_reset_safety_safe_iff gwCurrentOnly "p" "tgt" "claude" "abc" 3
    ["[Claude] edit one", "[Claude Workbench] edit two"]
    (build_safety_info "claude" 3 ["[Claude] edit one", "[Claude Workbench] edit two"])
    (by decide) (by decide) (by decide) (by decide) (by decide)).2
    (by decide) (by decide)

/-- C2: over the examined range, `hasOtherEngineCommits` is set exactly when
some subject carries an engine marker attributed to an engine other than the
requesting one (independently of `commitsToLose`), and `hasUserCommits`
exactly when some subject carries no engine marker and its lowercased text
does not contain `"merge"`; a range whose only subject is such an unmarked
non-merge commit yields `hasUserCommits = true` and `safeToProceed = false`. -/
theorem check_reset_safety_classification (gw : Gateway)
    (project_path target_commit current_engine head : String) (n : Nat)
    (msgs : List String) (info : ResetSafetyInfo)
    (hhead : git_current_commit gw project_path = .ok head)
    (hne : head ≠ target_commit)
    (hcount : git_commit_count_between gw project_path target_commit head = .ok n)
    (hlog : git_log_between gw project_path target_commit head = .ok msgs)
    (hres : check_reset_safety gw project_path target_commit current_engine = .ok info) :
    (info.has_other_engine_commits =
      msgs.any (fun m => is_any_engine m && !is_current_engine current_engine m))
    ∧ (info.has_user_commits = msgs.any is_user_commit)
    ∧ (∀ m, msgs = [m] → is_any_engine m = false →
        containsSubstr (toLowerString m) "merge" = false →
        info.has_user_commits = true ∧ info.safe_to_proceed = false) := by
  have heq := check_reset_safety_eq_ok gw project_path target_commit current_engine
    head n msgs hhead hne hcount hlog
  rw [heq] at hres
  have hinfo : info = build_safety_info current_engine n msgs := by
    cases hres; rfl
  subst hinfo
  refine ⟨classifyAll_other current_engine msgs, classifyAll_user current_engine msgs, ?_⟩
  intro m hm hany hmerge
  subst hm
  have huser : is_user_commit m = true := by
    unfold is_user_commit
    rw [hany, hmerge]
    rfl
  have huc : (classifyAll current_engine [m]).has_user_commits = true := by
    rw [classifyAll_user]
    simp [huser]
  constructor
  · exact huc
  · rw [build_safety_info_safe, huc]
    simp

/-- Witness for C2: a single unmarked non-merge subject makes the verdict
unsafe with `hasUserCommits`. -/
theorem check_reset_safety_classification_witness :
    (build_safety_info "claude" 1 ["fix typo by hand"]).has_user_commits = true ∧
    (build_safety_info "claude" 1 ["fix typo by hand"]).safe_to_proceed = false :=
  (check_reset_safety_classification gwUserOnly "p" "tgt" "claude" "abc" 1
    ["fix typo by hand"] (build_safety_info "claude" 1 ["fix typo by hand"])
    (by decide) (by decide) (by decide) (by decide) (by decide)).2.2
    "fix typo by hand" rfl (by decide) (by decide)

/-- C3: every verdict `check_reset_safety` returns satisfies the value
invariant — a safe verdict carries no warning, a zero-loss verdict is safe
(using the git contract that a range's subject list is no longer than its
`rev-list --count`), and the stored summary list never exceeds 10 entries. -/
theorem check_reset_safety_invariants (gw : Gateway)
    (project_path target_commit current_engine : String) (info : ResetSafetyInfo)
    (hcoh : ∀ frm tc npar msgs, git_commit_count_between gw project_path frm tc = .ok npar →
      git_log_between gw project_path frm tc = .ok msgs → msgs.length ≤ npar)
    (hres : check_reset_safety gw project_path target_commit current_engine = .ok info) :
    (info.safe_to_proceed = true → info.warning = none) ∧
    (info.commits_to_lose = 0 → info.safe_to_proceed = true) ∧
    info.commits_summary.length ≤ 10 := by
  unfold check_reset_safety at hres
  split at hres
  · exact absurd hres (by simp)
  · rename_i head hh
    split at hres
    · cases hres
      exact ⟨fun _ => rfl, fun _ => rfl, by simp⟩
    · split at hres
      · exact absurd hres (by simp)
      · rename_i n hc
        split at hres
        · exact absurd hres (by simp)
        · rename_i msgs hl
          have hinfo : info = build_safety_info current_engine n msgs := by
            cases hres; rfl
          subst hinfo
          refine ⟨?_, ?_, ?_⟩
          · intro hsafe
            have hs : safeFlag current_engine n msgs = true := hsafe
            show warningText current_engine n msgs = none
            unfold warningText
            rw [hs]
            simp
          · intro h0
            have hn : n = 0 := h0
            subst hn
            have hlen := hcoh target_commit head 0 msgs hc hl
            have hmsgs : msgs = [] := List.eq_nil_of_length_eq_zero (Nat.le_zero.mp hlen)
            subst hmsgs
            rfl
          · show (msgs.take 10).length ≤ 10
            simp

theorem gwEmptyRange_count (frm tc : String) :
    git_commit_count_between gwEmptyRange "p" frm tc = .ok 0 := rfl

theorem gwEmptyRange_log (frm tc : String) :
    git_log_between gwEmptyRange "p" frm tc = .ok [] := rfl

/-- Witness for C3 at a concrete gateway with an empty range. -/
theorem check_reset_safety_invariants_witness :
    (build_safety_info "claude" 0 []).warning = none ∧
    (build_safety_info "claude" 0 []).safe_to_proceed = true ∧
    (build_safety_info "claude" 0 []).commits_summary.length ≤ 10 := by
  have hcoh : ∀ frm tc npar msgs,
      git_commit_count_between gwEmptyRange "p" frm tc = .ok npar →
      git_log_between gwEmptyRange "p" frm tc = .ok msgs → msgs.length ≤ npar := by
    intro frm tc npar msgs h1 h2
    rw [gwEmptyRange_count] at h1
    rw [gwEmptyRange_log] at h2
    have hn := Except.ok.inj h1
    have hm := Except.ok.inj h2
    subst hn
    subst hm
    simp
  have h := check_reset_safety_invariants gwEmptyRange "p" "tgt" "claude"
    (build_safety_info "claude" 0 []) hcoh (by decide)
  exact ⟨h.1 (by decide), h.2.1 (by decide), h.2.2⟩

/-- C10: an unrecognised `current_engine` string (any casing other than the
exact `"claude"`, `"codex"`, `"gemini"`) matches no commit as current-engine,
so any range containing a marker of any engine is reported as containing
other-engine commits and is unsafe. -/
theorem check_reset_safety_unknown_engine (gw : Gateway)
    (project_path target_commit current_engine head : String) (n : Nat)
    (msgs : List String) (info : ResetSafetyInfo)
    (h1 : current_engine ≠ "claude") (h2 : current_engine ≠ "codex")
    (h3 : current_engine ≠ "gemini")
    (hhead : git_current_commit gw project_path = .ok head)
    (hne : head ≠ target_commit)
    (hcount : git_commit_count_between gw project_path target_commit head = .ok n)
    (hlog : git_log_between gw project_path target_commit head = .ok msgs)
    (hres : check_reset_safety gw project_path target_commit current_engine = .ok info)
    (hmark : ∃ msg ∈ msgs, is_any_engine msg = true) :
    (∀ msg, is_current_engine current_engine msg = false) ∧
    info.has_other_engine_commits = true ∧
    info.safe_to_proceed = false := by
  have hunk : ∀ msg, is_current_engine current_engine msg = false := fun msg =>
    is_current_engine_unknown current_engine msg h1 h2 h3
  have heq := check_reset_safety_eq_ok gw project_path target_commit current_engine
    head n msgs hhead hne hcount hlog
  rw [heq] at hres
  have hinfo : info = build_safety_info current_engine n msgs := by
    cases hres; rfl
  subst hinfo
  have hother : (classifyAll current_engine msgs).has_other_engine_commits = true := by
    rw [classifyAll_other, List.any_eq_true]
    obtain ⟨m, hm, hany⟩ := hmark
    refine ⟨m, hm, ?_⟩
    rw [hany, hunk m]
    rfl
  refine ⟨hunk, hother, ?_⟩
  rw [build_safety_info_safe, hother]
  rfl

/-- Witness for C10: engine string `"CLAUDE"` (wrong casing) and a range with
a `[Codex]` commit. -/
theorem check_reset_safety_unknown_engine_witness :
    (build_safety_info "CLAUDE" 2 ["[Codex] refactor"]).has_other_engine_commits = true ∧
    (build_safety_info "CLAUDE" 2 ["[Codex] refactor"]).safe_to_proceed = false :=
  (check_reset_safety_unknown_engine gwCodexMarked "p" "tgt" "CLAUDE" "abc" 2
    ["[Codex] refactor"] (build_safety_info "CLAUDE" 2 ["[Codex] refactor"])
    (by decide) (by decide) (by decide) (by decide) (by decide) (by decide)
    (by decide) (by decide) (by decide)).2

/-- C4: on a repository that is already `Ready`, `ensure_git_repo` returns
success with the state unchanged (no side effects), whatever the command
environment — so a second call in a row also succeeds and performs no second
commit. -/
theorem ensure_git_repo_idempotent (f f' : BootFaults) (s : RepoState)
    (hready : isReady s = true) :
    ensure_git_repo f s = .ok s ∧ ensure_git_repo f' s = .ok s := by
  have h : ∀ g : BootFaults, ensure_git_repo g s = .ok s := by
    intro g
    have hr : (s.hasGitDir && !s.commitMessages.isEmpty) = true := hready
    simp [ensure_git_repo, hr]
  exact ⟨h f, h f'⟩

/-- Witness for C4: a ready one-commit repository, first call in a fault-free
environment, second call in a fully broken one. -/
theorem ensure_git_repo_idempotent_witness :
    ensure_git_repo faultsOk readyState = .ok readyState ∧
    ensure_git_repo faultsBroken readyState = .ok readyState :=
  ensure_git_repo_idempotent faultsOk faultsBroken readyState (by decide)

/-- C5: during bootstrap of a non-ready repository, a failed `git init` and a
failed initial `git commit` are fatal, propagated with the captured stderr
text, while identity-configuration outcomes (arbitrary `c1`, `c2`) and a
staging command that runs and fails never abort — the initial commit is still
created. -/
theorem ensure_git_repo_error_split (s : RepoState) (hnr : isReady s = false)
    (c1 c2 : ProcResult) (e w : String) :
    (s.hasGitDir = false → ∀ ar cr : ProcResult,
      ensure_git_repo ⟨.ran false e, c1, c2, ar, cr⟩ s =
        .error ("Git init failed: " ++ e)) ∧
    (ensure_git_repo ⟨.ran true "", c1, c2, .ran true "", .ran false e⟩ s =
      .error ("Failed to create initial commit: " ++ e)) ∧
    ((ensure_git_repo ⟨.ran true "", c1, c2, .ran false w, .ran true ""⟩ s).map
        RepoState.commitMessages = .ok (initialCommitMessage :: s.commitMessages)) := by
  have hr : (s.hasGitDir && !s.commitMessages.isEmpty) = false := hnr
  refine ⟨?_, ?_, ?_⟩
  · intro hg ar cr
    simp [ensure_git_repo, hr, hg]
  · cases hg : s.hasGitDir with
    | false => simp [ensure_git_repo, hr, hg]
    | true =>
      have hm : s.commitMessages = [] := by
        rw [hg] at hr
        simpa using hr
      simp [ensure_git_repo, hr, hg, hm]
  · cases hg : s.hasGitDir with
    | false => simp [ensure_git_repo, hr, hg, Except.map]
    | true =>
      have hm : s.commitMessages = [] := by
        rw [hg] at hr
        simpa using hr
      simp [ensure_git_repo, hr, hg, hm, Except.map]

/-- Witness for C5: absent store, config spawn failures, staging succeeds,
commit fails — the commit failure is propagated. -/
theorem ensure_git_repo_error_split_witness :
    ensure_git_repo ⟨.ran true "", .spawnErr "cfg", .spawnErr "cfg", .ran true "",
      .ran false "boom"⟩ absentState =
      .error ("Failed to create initial commit: " ++ "boom") :=
  (ensure_git_repo_error_split absentState (by decide) (.spawnErr "cfg") (.spawnErr "cfg")
    "boom" "warn").2.1

/-- C8 is false as stated: with a dirty working tree, a failure to spawn the
stash process while stashing is propagated as an error, not converted to
success. -/
theorem git_stash_save_spawn_counterexample :
    git_stash_save gwStashSpawnFail "p" "msg" = .error "Failed to stash: boom" := by
  decide

/-- C8 amended: stash save is a no-op success when the status query prints
nothing, and whenever the stash command itself runs (whatever its exit
status, in particular a reported failure) the call returns success; only a
failure to spawn either process is propagated. -/
theorem git_stash_save_spec (gw : Gateway) (project_path message : String) (st out : Output)
    (hst : gw project_path ["status", "--porcelain"] = .ok st) :
    (st.stdout = [] → git_stash_save gw project_path message = .ok ()) ∧
    (gw project_path ["stash", "save", "-u", message] = .ok out →
      git_stash_save gw project_path message = .ok ()) := by
  constructor
  · intro hempty
    unfold git_stash_save
    rw [hst]
    simp [hempty]
  · intro hstash
    unfold git_stash_save
    rw [hst]
    cases hsd : st.stdout.isEmpty <;> simp [hstash]

/-- Witness for C8's amended theorem: a clean tree is a no-op success, and a
stash command that runs and reports failure still yields success. -/
theorem git_stash_save_spec_witness :
    git_stash_save gwStashClean "p" "msg" = .ok () ∧
    git_stash_save gwStashCmdFail "p" "msg" = .ok () :=
  ⟨(git_stash_save_spec gwStashClean "p" "msg" ⟨true, [], []⟩ ⟨true, [], []⟩
      (by decide)).1 (by decide),
   (git_stash_save_spec gwStashCmdFail "p" "msg" ⟨true, asciiBytes "M file\n", []⟩
      ⟨false, [], asciiBytes "stash failed"⟩ (by decide)).2 (by decide)⟩

set_option maxRecDepth 4000 in
theorem utf8DecodeOne_length (l : List Nat) (c : Nat) (r : List Nat)
    (h : utf8DecodeOne l = some (c, r)) : r.length < l.length := by
  unfold utf8DecodeOne at h
  dsimp only at h
  repeat' split at h
  all_goals try cases h
  all_goals subst_vars
  all_goals simp only [List.length_cons]
  all_goals omega

theorem utf8DecodeAux_none_repChar : ∀ (fuel : Nat) (l : List Nat), l.length ≤ fuel →
    utf8DecodeAux fuel l = none → repChar ∈ utf8DecodeLossyAux fuel l := by
  intro fuel
  induction fuel with
  | zero =>
    intro l hlen hnone
    have hnil : l = [] := List.eq_nil_of_length_eq_zero (Nat.le_zero.mp hlen)
    subst hnil
    exact absurd hnone (by simp [utf8DecodeAux])
  | succ f ih =>
    intro l hlen hnone
    match l with
    | [] => exact absurd hnone (by simp [utf8DecodeAux])
    | b :: rest =>
      rw [utf8DecodeAux] at hnone
      rw [utf8DecodeLossyAux]
      cases hone : utf8DecodeOne (b :: rest) with
      | none =>
        show repChar ∈ repChar :: utf8DecodeLossyAux f rest
        exact List.mem_cons_self _ _
      | some p =>
        obtain ⟨c, r⟩ := p
        rw [hone] at hnone
        dsimp only at hnone ⊢
        rw [Option.map_eq_none'] at hnone
        have hrlen : r.length ≤ f := by
          have hlt := utf8DecodeOne_length (b :: rest) c r hone
          simp only [List.length_cons] at hlt hlen
          omega
        exact List.mem_cons_of_mem _ (ih r hrlen hnone)

/-- Invalid UTF-8 input always leaves at least one replacement character in
the lossy decoding. -/
theorem utf8Decode_none_repChar (l : List Nat) (h : utf8Decode l = none) :
    repChar ∈ utf8DecodeLossy l :=
  utf8DecodeAux_none_repChar l.length l (Nat.le_refl _) h

theorem mem_dropWhile_of_not (p : Char → Bool) (c : Char) (hc : p c = false) :
    ∀ l : List Char, c ∈ l → c ∈ l.dropWhile p := by
  intro l
  induction l with
  | nil => intro h; cases h
  | cons x t ih =>
    intro h
    rw [List.dropWhile_cons]
    by_cases hx : p x = true
    · rw [if_pos hx]
      rcases List.mem_cons.mp h with rfl | hmem
      · rw [hc] at hx; cases hx
      · exact ih hmem
    · rw [if_neg hx]
      exact h

theorem mem_rustTrim (c : Char) (hc : isRustWhitespace c = false) (l : List Char)
    (h : c ∈ l) : c ∈ rustTrim l := by
  unfold rustTrim
  rw [List.mem_reverse]
  apply mem_dropWhile_of_not _ _ hc
  rw [List.mem_reverse]
  exact mem_dropWhile_of_not _ _ hc l h

theorem parseDigits_error_of_repChar (cs : List Char) :
    ∀ acc : Nat, repChar ∈ cs →
      parseDigits acc cs = .error "invalid digit found in string" ∨
      parseDigits acc cs = .error "number too large to fit in target type" := by
  induction cs with
  | nil =>
    intro acc h
    cases h
  | cons c cs' ih =>
    intro acc h
    unfold parseDigits
    by_cases hd : c.isDigit = true
    · have hmem : repChar ∈ cs' := by
        rcases List.mem_cons.mp h with rfl | hm
        · exact absurd hd (by decide)
        · exact hm
      rw [if_pos hd]
      dsimp only
      by_cases ho : acc * 10 + (c.toNat - 48) < 2 ^ 64
      · rw [if_pos ho]
        exact ih _ hmem
      · rw [if_neg ho]
        exact Or.inr rfl
    · rw [if_neg hd]
      exact Or.inl rfl

theorem parseUsize_error_of_repChar (t : List Char) (h : repChar ∈ t) :
    parseUsize t = .error "invalid digit found in string" ∨
    parseUsize t = .error "number too large to fit in target type" := by
  match t with
  | [] => cases h
  | x :: ts =>
    by_cases hx : x = '+'
    · subst hx
      have hmem : repChar ∈ ts := by
        rcases List.mem_cons.mp h with hh | hh
        · exact absurd hh (by decide)
        · exact hh
      have hne : ts.isEmpty = false := by
        cases ts with
        | nil => cases hmem
        | cons a b => rfl
      have hgoal : parseUsize ('+' :: ts) = parseDigits 0 ts := by
        unfold parseUsize
        simp [hne]
      rw [hgoal]
      exact parseDigits_error_of_repChar ts 0 hmem
    · have hgoal : parseUsize (x :: ts) = parseDigits 0 (x :: ts) := by
        unfold parseUsize
        simp [hx]
      rw [hgoal]
      exact parseDigits_error_of_repChar (x :: ts) 0 h

/-- The fixed parser overflows before it reaches the invalid bytes: twenty
nines followed by the replacement character report positive overflow, exactly
as Rust's checked accumulation does. -/
theorem parseUsize_overflow_before_invalid :
    parseUsize (List.replicate 20 '9' ++ [repChar]) =
      .error "number too large to fit in target type" := by
  decide

/-- C7 is false as stated for `git_commit_count_between`: on stdout that is
not valid UTF-8 (the single byte `0xFF`) it does not fail with a decode
error — it proceeds with the lossily replaced text and fails with the
`parse` error of the count parser. -/
theorem git_commit_count_between_lossy_counterexample :
    utf8Decode [0xFF] = none ∧
    git_commit_count_between gwInvalidUtf8 "p" "a" "b" =
      .error "Failed to parse commit count: invalid digit found in string" := by
  constructor
  · decide
  · decide

/-- C7 amended: when stdout is not valid UTF-8, `git_current_commit` (which
decodes strictly) fails with a UTF-8 decode error, while
`git_commit_count_between` (which decodes lossily) proceeds with the replaced
text and fails with a numeric-parse error — `invalid digit found in string`,
or `number too large to fit in target type` when an overflowing digit prefix
precedes the invalid bytes — so it never returns a count, but its error is a
parse error, not a decode error. -/
theorem parsed_stdout_decode_behavior (gw : Gateway)
    (project_path from_commit to_commit : String) (out out2 : Output)
    (h1 : gw project_path ["rev-parse", "HEAD"] = .ok out)
    (hs1 : out.success = true)
    (hbad1 : utf8Decode out.stdout = none)
    (h2 : gw project_path ["rev-list", "--count", from_commit ++ ".." ++ to_commit] = .ok out2)
    (hs2 : out2.success = true)
    (hbad2 : utf8Decode out2.stdout = none) :
    git_current_commit gw project_path =
      .error ("Invalid UTF-8 in commit hash: " ++ "invalid utf-8 sequence") ∧
    (git_commit_count_between gw project_path from_commit to_commit =
        .error ("Failed to parse commit count: " ++ "invalid digit found in string") ∨
      git_commit_count_between gw project_path from_commit to_commit =
        .error ("Failed to parse commit count: " ++ "number too large to fit in target type")) := by
  constructor
  · unfold git_current_commit
    rw [h1]
    dsimp only
    rw [hs1]
    simp only [Bool.not_true, Bool.false_eq_true, if_false]
    rw [hbad1]
  · unfold git_commit_count_between
    rw [h2]
    dsimp only
    rw [hs2]
    simp only [Bool.not_true, Bool.false_eq_true, if_false]
    have hmem : repChar ∈ rustTrim (utf8DecodeLossy out2.stdout) :=
      mem_rustTrim repChar (by decide) _ (utf8Decode_none_repChar out2.stdout hbad2)
    rcases parseUsize_error_of_repChar _ hmem with he | he
    · left
      rw [he]
    · right
      rw [he]

/-- Witness for the amended C7 at the concrete gateway whose parsed-stdout
queries both return the invalid byte `0xFF`. -/
theorem parsed_stdout_decode_behavior_witness :
    git_current_commit gwInvalidUtf8 "p" =
      .error ("Invalid UTF-8 in commit hash: " ++ "invalid utf-8 sequence") ∧
    (git_commit_count_between gwInvalidUtf8 "p" "a" "b" =
        .error ("Failed to parse commit count: " ++ "invalid digit found in string") ∨
      git_commit_count_between gwInvalidUtf8 "p" "a" "b" =
        .error ("Failed to parse commit count: " ++ "number too large to fit in target type")) :=
  parsed_stdout_decode_behavior gwInvalidUtf8 "p" "a" "b"
    ⟨true, [0xFF], []⟩ ⟨true, [0xFF], []⟩
    (by decide) (by decide) (by decide) (by decide) (by decide) (by decide)

theorem alistLookup_insert {α : Type} (l : List (String × α)) (key : String) (v : α) :
    alistLookup (alistInsert l key v) key = some v := by
  induction l with
  | nil => simp [alistInsert, alistLookup]
  | cons p t ih =>
    obtain ⟨k, w⟩ := p
    by_cases hk : k = key
    · simp [alistInsert, alistLookup, hk]
    · simp [alistInsert, alistLookup, hk, ih]

theorem alistLookup_remove {α : Type} (l : List (String × α)) (key : String) :
    alistLookup (alistRemove l key) key = none := by
  induction l with
  | nil => simp [alistRemove, alistLookup]
  | cons p t ih =>
    obtain ⟨k, w⟩ := p
    by_cases hk : k = key
    · simpa [alistRemove, alistLookup, hk] using ih
    · simpa [alistRemove, alistLookup, hk] using ih

/-- C9: for every registry file state and every field values, upserting an
entry and reading it back yields an entry equal in all fields, and removing
an id and reading it back yields `none` (not an error). -/
theorem registry_roundtrip {V : Type} (store : Store V) (id name : String) (server : V)
    (enabled : Bool) :
    (upsert_server store id name server enabled).bind (fun st => get_server st id) =
      .ok (some { id := id, name := name, server := server, enabled := enabled }) ∧
    (remove_server store id).bind (fun st => get_server st id) = .ok none := by
  constructor
  · cases store with
    | none =>
      simp [upsert_server, read_registry, write_registry, get_server, Except.bind,
        alistLookup_insert]
    | some reg =>
      simp [upsert_server, read_registry, write_registry, get_server, Except.bind,
        alistLookup_insert]
  · cases store with
    | none =>
      simp [remove_server, read_registry, write_registry, get_server, Except.bind,
        alistLookup, alistRemove]
    | some reg =>
      by_cases hl : (alistLookup reg.servers id).isSome
      · simp [remove_server, read_registry, write_registry, get_server, Except.bind, hl,
          alistLookup_remove]
      · have hnone : alistLookup reg.servers id = none := by
          cases hx : alistLookup reg.servers id with
          | none => rfl
          | some v => rw [hx] at hl; exact absurd rfl hl
        simp [remove_server, read_registry, write_registry, get_server, Except.bind, hl, hnone]

theorem statusLoop_foldl {V : Type} (en : List (String × V))
    (l : List (String × RegistryEntry V)) (acc : List (String × V × Bool) × List String) :
    l.foldl (statusLoop en) acc =
      (acc.1 ++ l.map (fun p =>
          (p.1, (alistLookup en p.1).getD p.2.server, (alistLookup en p.1).isSome)),
        acc.2 ++ l.map Prod.fst) := by
  induction l generalizing acc with
  | nil => simp
  | cons p t ih =>
    rw [List.foldl_cons, ih]
    simp [statusLoop]

/-- C6: the reconciled listing contains every persisted registry entry paired
with its live-enabled status (the engine's spec winning when the id is live),
and additionally contains every live-only id with the engine's spec, marked
enabled. -/
theorem get_engine_servers_with_status_spec {V : Type} (env : McpEnv V)
    (reg : List (String × RegistryEntry V)) (enabled : List (String × V))
    (res : List (String × V × Bool))
    (hok : env.appTypeOk = true)
    (hreg : read_registry env.store = .ok { servers := reg })
    (hen : env.importResult = .ok enabled)
    (hres : get_engine_servers_with_status env = .ok res) :
    (∀ id entry, (id, entry) ∈ reg →
      (id, (alistLookup enabled id).getD entry.server, (alistLookup enabled id).isSome) ∈ res) ∧
    (∀ id spec, (id, spec) ∈ enabled → id ∉ reg.map Prod.fst → (id, spec, true) ∈ res) := by
  unfold get_engine_servers_with_status at hres
  rw [hreg, hok, hen] at hres
  simp only [Bool.not_true, Bool.false_eq_true, if_false] at hres
  rw [statusLoop_foldl] at hres
  simp only [List.nil_append] at hres
  have hr : res =
      reg.map (fun p =>
        (p.1, (alistLookup enabled p.1).getD p.2.server, (alistLookup enabled p.1).isSome)) ++
      (enabled.filter (fun p => !(reg.map Prod.fst).contains p.1)).map
        (fun p => (p.1, p.2, true)) := by
    cases hres
    rfl
  subst hr
  constructor
  · intro id entry hmem
    apply List.mem_append_left
    exact List.mem_map_of_mem _ hmem
  · intro id spec hmem hnot
    apply List.mem_append_right
    have h' : (id, spec) ∈ enabled.filter (fun p => !(reg.map Prod.fst).contains p.1) := by
      rw [List.mem_filter]
      refine ⟨hmem, ?_⟩
      simpa using hnot
    exact List.mem_map_of_mem (fun p => (p.1, p.2, true)) h'

/-- Witness for C6 at the concrete environment `envC6`: the persisted entry
`a` appears with its stored spec and disabled status, the live-only id `b`
appears with the engine's spec and enabled status. -/
theorem get_engine_servers_with_status_spec_witness :
    ("a", (alistLookup [("b", (7 : Nat))] "a").getD 5,
      (alistLookup [("b", (7 : Nat))] "a").isSome) ∈ resC6 ∧
    ("b", (7 : Nat), true) ∈ resC6 := by
  have h := get_engine_servers_with_status_spec envC6
    [("a", { id := "a", name := "A", server := 5, enabled := false })] [("b", 7)] resC6
    (by decide) rfl rfl (by decide)
  exact ⟨h.1 "a" { id := "a", name := "A", server := 5, enabled := false } (by decide),
    h.2 "b" 7 (by decide) (by decide)⟩
